import Mathlib

/-!
# Verification of the lab-exporter agent core (src/lab_exporter.py)

Shallow embedding of the stateful core of the agent:

* `NetworkRateTracker` (src/lab_exporter.py lines 295-340): per-NIC byte
  counters turned into Mbps rates with clamping and rounding.
* the report loop's configVersion tracking and refresh decision
  (lines 519-573), the refresh block (lines 554-571),
* the initial config fetch retry loop (lines 474-504),
* `save_local_config` / `load_local_config` (lines 346-356).

Python floats are modelled as rationals (`ℚ`); Python's `round(x, 1)`
(round half to even on the scaled value) is modelled exactly on `ℚ` by
`round1`.  Python dicts keyed by NIC name are modelled as association
lists with `dictGet` / `dictSet` (insertion order preserved, overwrite in
place, exactly as CPython dicts behave).
-/

/-- Cumulative byte counters of one NIC, as returned per NIC by
`psutil.net_io_counters(pernic=True)` (fields `bytes_recv` / `bytes_sent`). -/
structure NicCounters where
  rx : Nat
  tx : Nat
deriving DecidableEq

/-- One entry of `snapshot["nics"]`: name plus the two rate fields that
`NetworkRateTracker.update` fills in (`collect_snapshot` initializes both
to `0.0`, lines 266-271). -/
structure Nic where
  name : String
  rxMbps : ℚ
  txMbps : ℚ
deriving DecidableEq

/-- The parts of the snapshot dict that `NetworkRateTracker.update`
reads or writes (lines 314, 337-338). -/
structure Snapshot where
  nics : List Nic
  networkRxMbps : ℚ
  networkTxMbps : ℚ
deriving DecidableEq

/-- `d.get(k)` on a Python dict modelled as an association list. -/
def dictGet {α : Type} : List (String × α) → String → Option α
  | [], _ => none
  | (k, v) :: rest, name => if k = name then some v else dictGet rest name

/-- `d[k] = v` on a Python dict modelled as an association list:
overwrite in place, append when absent. -/
def dictSet {α : Type} : List (String × α) → String → α → List (String × α)
  | [], name, v => [(name, v)]
  | (k, w) :: rest, name, v =>
      if k = name then (k, v) :: rest else (k, w) :: dictSet rest name v

/-- Python's `round(q, 1)`: round to one decimal digit, ties to even,
exact on rationals. -/
def round1 (q : ℚ) : ℚ :=
  let f : ℤ := ⌊q * 10⌋
  let r : ℚ := q * 10 - (f : ℚ)
  if r < 1 / 2 then (f : ℚ) / 10
  else if 1 / 2 < r then ((f : ℚ) + 1) / 10
  else if 2 ∣ f then (f : ℚ) / 10 else ((f : ℚ) + 1) / 10

/-- Server-controlled monitoring configuration (the JSON object the agent
treats as `monitor_config`; field schema per the registration protocol).
Absent fields are `none`; the dict comparison `new_config != monitor_config`
(line 563) is full structural equality. -/
structure MonitorConfig where
  reportIntervalSec : Option Nat
  gpuIndices : Option (List Nat)
  diskMounts : Option (List String)
  nicNames : Option (List String)
  configVersion : Option Int
deriving DecidableEq

/-- Mutable state of `NetworkRateTracker` (lines 298-302):
`_prev`, `_prev_time`, `_initialized`. -/
structure TrackerState where
  prev : List (String × NicCounters)
  prevTime : ℚ
  initialized : Bool
deriving DecidableEq

/-- `NetworkRateTracker.__init__` (lines 298-302). -/
def TrackerState.mk0 : TrackerState := ⟨[], 0, false⟩

/-- Accumulator for the `for nic in snapshot.get("nics", [])` loop of
`update` (lines 314-335): nics processed so far, running totals, and the
`_prev` dict which is mutated while iterating. -/
structure UpdAcc where
  outNics : List Nic
  totalRx : ℚ
  totalTx : ℚ
  prev : List (String × NicCounters)

/-- One iteration of the loop body of `NetworkRateTracker.update`
(lines 314-335).  `continue` when the NIC is missing from
`net_counters` (line 317-318); otherwise compute rates when `dt > 0`
and a previous counter exists (lines 323-327), else zero (lines 328-330);
accumulate totals (332-333) and record the current counters (335). -/
def updateNic (netCounters : List (String × NicCounters)) (dt : ℚ)
    (acc : UpdAcc) (nic : Nic) : UpdAcc :=
  match dictGet netCounters nic.name with
  | none => { acc with outNics := acc.outNics ++ [nic] }
  | some c =>
    let newNic : Nic :=
      if 0 < dt then
        match dictGet acc.prev nic.name with
        | some p =>
            let rxMbps : ℚ := (((c.rx : ℚ) - (p.rx : ℚ)) * 8) / (dt * 1000000)
            let txMbps : ℚ := (((c.tx : ℚ) - (p.tx : ℚ)) * 8) / (dt * 1000000)
            { name := nic.name
              rxMbps := round1 (max rxMbps 0)
              txMbps := round1 (max txMbps 0) }
        | none => { name := nic.name, rxMbps := 0, txMbps := 0 }
      else { name := nic.name, rxMbps := 0, txMbps := 0 }
    { outNics := acc.outNics ++ [newNic]
      totalRx := acc.totalRx + newNic.rxMbps
      totalTx := acc.totalTx + newNic.txMbps
      prev := dictSet acc.prev nic.name c }

/-- `NetworkRateTracker.update(snapshot, config)` (lines 304-340).
`config` is read (`nic_names_cfg`, line 306) but never used afterwards in
the source, so it is an unused parameter here as well.  `netCounters` is
the result of `psutil.net_io_counters(pernic=True)` (line 307), `now` of
`time.time()` (line 308).  Returns the updated snapshot and tracker
state. -/
def NetworkRateTracker.update (st : TrackerState) (snapshot : Snapshot)
    (_config : MonitorConfig) (netCounters : List (String × NicCounters))
    (now : ℚ) : Snapshot × TrackerState :=
  let dt : ℚ :=
    if st.initialized = true then
      (if 0 < now - st.prevTime then now - st.prevTime else 0)
    else 0
  let res := snapshot.nics.foldl (updateNic netCounters dt) ⟨[], 0, 0, st.prev⟩
  ({ nics := res.outNics
     networkRxMbps := round1 res.totalRx
     networkTxMbps := round1 res.totalTx },
   { prev := res.prev, prevTime := now, initialized := true })

/-!
## Report loop and config sync (src/lab_exporter.py lines 474-573)

Network interactions are modelled by response scripts: a call to
`GET /api/monitoring/config` consumes one `ConfigResp`, a report tick is
driven by one `ReportResp`.  A `netErr` constructor stands for a raised
`requests.RequestException`.
-/

/-- Outcome of one `GET {server}/api/monitoring/config` call: an HTTP
status code with the parsed JSON body, or a raised
`requests.RequestException`. -/
inductive ConfigResp where
  | resp (code : Nat) (cfg : MonitorConfig)
  | netErr
deriving DecidableEq

/-- Outcome of one `POST {server}/api/monitoring/report` call: an HTTP
status code together with the `configVersion` field of the JSON body
(`none` when the key is absent; the code reads it with
`data.get("configVersion", 0)`, line 537), or a raised
`requests.RequestException`. -/
inductive ReportResp where
  | resp (code : Nat) (configVersion : Option Int)
  | netErr
deriving DecidableEq

/-- Result of the initial config fetch loop (lines 474-504): the loop
`break`s with a config on HTTP 200, or the process `sys.exit(1)`s on
HTTP 401. -/
inductive FetchResult where
  | gotConfig (cfg : MonitorConfig)
  | exits (code : Nat)
deriving DecidableEq

/-- Observable events of the initial fetch loop: the fixed
`time.sleep(5)` between attempts (line 501) and the warning logged when
`retry_count > 60` (lines 499-500). -/
inductive FetchEvent where
  | sleep (seconds : Nat)
  | warn (count : Nat)
deriving DecidableEq

/-- The initial config fetch loop, lines 474-504, run against a finite
response script.  `count` is `retry_count`.  On HTTP 200 the loop breaks
with the config; on HTTP 401 the process exits with code 1; on any other
status or on a transport exception it increments `retry_count`, warns if
`retry_count > 60`, sleeps 5 seconds and retries.  Returns `none` when
the script is exhausted without a terminal response (the real loop would
keep retrying), plus the list of emitted events. -/
def fetchInitialGo : Nat → List ConfigResp → Option FetchResult × List FetchEvent
  | _, [] => (none, [])
  | count, r :: rest =>
    let retry : Option FetchResult × List FetchEvent :=
      let next := fetchInitialGo (count + 1) rest
      (next.1,
       (if count + 1 > 60 then [FetchEvent.warn (count + 1)] else [])
         ++ FetchEvent.sleep 5 :: next.2)
    match r with
    | ConfigResp.resp code cfg =>
        if code = 200 then (some (FetchResult.gotConfig cfg), [])
        else if code = 401 then (some (FetchResult.exits 1), [])
        else retry
    | ConfigResp.netErr => retry

/-- A response that ends the initial fetch loop: HTTP 200 (break with
config) or HTTP 401 (exit). -/
def terminalResp : ConfigResp → Bool
  | ConfigResp.resp code _ => code = 200 || code = 401
  | ConfigResp.netErr => false

/-- Whether a fetch event is a sleep. -/
def isSleepEvent : FetchEvent → Bool
  | FetchEvent.sleep _ => true
  | FetchEvent.warn _ => false

/-- The report loop's mutable state (lines 507, 519-520, 563-568):
`known_config_version` (initially `-1`), `monitor_config`, `interval`. -/
structure LoopState where
  knownVersion : Int
  config : MonitorConfig
  interval : Nat
deriving DecidableEq

/-- Result of one loop iteration: continue with a new state (`refreshed`
records whether `need_config_refresh` was set this tick), or
`sys.exit(code)`. -/
inductive TickOutcome where
  | next (st : LoopState) (refreshed : Bool)
  | exits (code : Nat)
deriving DecidableEq

/-- Whether a tick outcome is a process exit. -/
def TickOutcome.isExit : TickOutcome → Bool
  | TickOutcome.exits _ => true
  | TickOutcome.next _ _ => false

/-- The `if need_config_refresh:` block of the report loop
(lines 554-571): one `GET /config` attempt consuming the head of the
config-endpoint script; on HTTP 200 with a structurally different body
the config (and possibly the interval) is replaced; every other outcome
— equal body, non-200 status (401 included), transport exception —
leaves the state untouched.  `override` is `args.interval`
(line 567: the interval is only adopted when `args.interval is None`).
`DEFAULT_REPORT_INTERVAL = 5` (line 52, used at line 566). -/
def refreshConfig (override : Option Nat) (st : LoopState)
    (ctrans : List ConfigResp) : TickOutcome × List ConfigResp :=
  match ctrans with
  | [] => (TickOutcome.next st true, [])
  | r :: rest =>
    match r with
    | ConfigResp.netErr => (TickOutcome.next st true, rest)
    | ConfigResp.resp code cfg =>
        if code = 200 then
          if cfg ≠ st.config then
            let newInterval := cfg.reportIntervalSec.getD 5
            let interval' :=
              if override = none ∧ newInterval ≠ st.interval then newInterval
              else st.interval
            (TickOutcome.next
              { knownVersion := st.knownVersion, config := cfg
                interval := interval' } true, rest)
          else (TickOutcome.next st true, rest)
        else (TickOutcome.next st true, rest)

/-- One iteration of the report loop (lines 520-573), reduced to the
configVersion / refresh / exit logic; snapshot collection and the POST
itself are summarized by `rresp`.  On HTTP 200 the server version is
`data.get("configVersion", 0)`; `known_config_version < 0` means "first
report, just record"; a differing version records the new version and
runs the refresh block; HTTP 401 is `sys.exit(1)`; any other status or a
transport exception only logs a warning. -/
def loopTick (override : Option Nat) (st : LoopState) (rresp : ReportResp)
    (ctrans : List ConfigResp) : TickOutcome × List ConfigResp :=
  match rresp with
  | ReportResp.netErr => (TickOutcome.next st false, ctrans)
  | ReportResp.resp code body =>
    if code = 200 then
      let sv : Int := body.getD 0
      if st.knownVersion < 0 then
        (TickOutcome.next { st with knownVersion := sv } false, ctrans)
      else if sv ≠ st.knownVersion then
        refreshConfig override { st with knownVersion := sv } ctrans
      else (TickOutcome.next st false, ctrans)
    else if code = 401 then (TickOutcome.exits 1, ctrans)
    else (TickOutcome.next st false, ctrans)

/-- Result of running the report loop over a script of report
responses. -/
structure RunResult where
  flags : List Bool
  exitCode : Option Nat
  final : LoopState
  remaining : List ConfigResp
deriving DecidableEq

/-- Run the report loop (lines 520-573) over a finite script of report
responses, threading the config-endpoint script through the refresh
block.  `flags` records, tick by tick, whether `need_config_refresh` was
set; the run stops early on `sys.exit`. -/
def runTicks (override : Option Nat) (st : LoopState) :
    List ReportResp → List ConfigResp → RunResult
  | [], ctrans => ⟨[], none, st, ctrans⟩
  | r :: rest, ctrans =>
    match loopTick override st r ctrans with
    | (TickOutcome.exits c, ct') => ⟨[], some c, st, ct'⟩
    | (TickOutcome.next st' flag, ct') =>
        let out := runTicks override st' rest ct'
        ⟨flag :: out.flags, out.exitCode, out.final, out.remaining⟩

/-- The refresh-trigger pattern claimed by the specification: per
successful (HTTP 200) report, record the returned version; the first
successful report triggers no refresh; each later successful report
triggers a refresh exactly when its version differs from the recorded
one.  Failed reports trigger nothing; a 401 stops the loop.  This
definition follows the spec's words and is compared against `runTicks`,
which is translated from the source. -/
def specRefreshFlags : Option Int → List ReportResp → List Bool
  | _, [] => []
  | recorded, ReportResp.netErr :: rest => false :: specRefreshFlags recorded rest
  | recorded, ReportResp.resp code body :: rest =>
    if code = 200 then
      let sv : Int := body.getD 0
      (match recorded with
       | none => false
       | some r => decide (sv ≠ r)) :: specRefreshFlags (some sv) rest
    else if code = 401 then []
    else false :: specRefreshFlags recorded rest

/-!
## Local state store (src/lab_exporter.py lines 346-356)

`save_local_config` opens the target path with mode `"w"` — which
truncates the file in place — and then writes the serialized JSON into
it.  The model records the sequence of file contents visible to a
concurrent reader during the call.  Serialization is abstracted: the
model stores the serialized text itself.
-/

/-- The sequence of file contents visible during
`save_local_config(path, data)` (lines 353-356): `open(path, "w")`
truncates the target to empty, then `json.dump(data, f, indent=2)`
writes the serialized text.  `none` would mean "file absent"; the target
exists (truncated) from the moment `open` returns. -/
def save_local_config_states (data : String) : List (Option String) :=
  [some "", some data]

/-- `load_local_config(path)` (lines 346-350): returns the parsed file
content when the file exists, `{}` otherwise.  At the level of
serialized text: the content itself, or the empty-object text. -/
def load_local_config (file : Option String) : String :=
  match file with
  | some s => s
  | none => "\x7b\x7d"

/-- Atomic-replace visibility: every state a concurrent reader can
observe during the save is either the old content or the complete new
content. -/
def atomicReplaceVisible (old : Option String) (new : String)
    (states : List (Option String)) : Prop :=
  ∀ s ∈ states, s = old ∨ s = some new

/-!
## Helper lemmas
-/

/-- A rational with at most one decimal digit. -/
def IsTenth (q : ℚ) : Prop := ∃ k : ℤ, q = (k : ℚ) / 10

/-- `dt` as computed at line 309 of the source:
`now - self._prev_time if self._initialized and (now - self._prev_time) > 0 else 0`. -/
def updateDt (st : TrackerState) (now : ℚ) : ℚ :=
  if st.initialized = true then
    (if 0 < now - st.prevTime then now - st.prevTime else 0)
  else 0


theorem IsTenth.zero : IsTenth 0 := ⟨0, by norm_num⟩

theorem IsTenth.add {a b : ℚ} (ha : IsTenth a) (hb : IsTenth b) :
    IsTenth (a + b) := by
  obtain ⟨k, rfl⟩ := ha
  obtain ⟨l, rfl⟩ := hb
  exact ⟨k + l, by push_cast; ring⟩

theorem round1_isTenth (q : ℚ) : IsTenth (round1 q) := by
  simp only [round1]
  split_ifs
  · exact ⟨⌊q * 10⌋, rfl⟩
  · exact ⟨⌊q * 10⌋ + 1, by push_cast; ring⟩
  · exact ⟨⌊q * 10⌋, rfl⟩
  · exact ⟨⌊q * 10⌋ + 1, by push_cast; ring⟩

theorem round1_nonneg {q : ℚ} (h : 0 ≤ q) : 0 ≤ round1 q := by
  have hf : (0 : ℤ) ≤ ⌊q * 10⌋ := Int.floor_nonneg.mpr (by positivity)
  have hf' : (0 : ℚ) ≤ (⌊q * 10⌋ : ℚ) := by exact_mod_cast hf
  simp only [round1]
  split_ifs
  · exact div_nonneg hf' (by norm_num)
  · exact div_nonneg (by linarith) (by norm_num)
  · exact div_nonneg hf' (by norm_num)
  · exact div_nonneg (by linarith) (by norm_num)

theorem round1_eq_self {q : ℚ} (h : IsTenth q) : round1 q = q := by
  obtain ⟨k, rfl⟩ := h
  have h10 : (k : ℚ) / 10 * 10 = (k : ℚ) := by field_simp
  simp only [round1, h10, Int.floor_intCast, sub_self]
  norm_num

theorem round1_zero : round1 0 = 0 := round1_eq_self IsTenth.zero

theorem dictGet_dictSet_self {α : Type} (m : List (String × α)) (k : String)
    (v : α) : dictGet (dictSet m k v) k = some v := by
  induction m with
  | nil => simp [dictGet, dictSet]
  | cons hd tl ih =>
      obtain ⟨k', w⟩ := hd
      by_cases h : k' = k
      · simp [dictGet, dictSet, h]
      · simp [dictGet, dictSet, h, ih]

theorem dictGet_dictSet_ne {α : Type} (m : List (String × α)) (k : String)
    (v : α) (name : String) (h : k ≠ name) :
    dictGet (dictSet m k v) name = dictGet m name := by
  induction m with
  | nil => simp [dictGet, dictSet, h]
  | cons hd tl ih =>
      obtain ⟨k', w⟩ := hd
      by_cases h' : k' = k
      · subst h'
        simp [dictGet, dictSet, h]
      · simp only [dictSet, if_neg h']
        by_cases h'' : k' = name
        · simp [dictGet, h'']
        · simp [dictGet, h'', ih]

/-- `continue` case of the update loop body: NIC missing from
`net_counters`. -/
theorem updateNic_skip {nc : List (String × NicCounters)} {dt : ℚ}
    {acc : UpdAcc} {nic : Nic} (h : dictGet nc nic.name = none) :
    updateNic nc dt acc nic = { acc with outNics := acc.outNics ++ [nic] } := by
  simp [updateNic, h]

/-- Processing case of the update loop body: some NIC record is appended,
totals grow by its (non-negative, one-decimal) rates, and the current
counters are recorded. -/
theorem updateNic_process {nc : List (String × NicCounters)} {dt : ℚ}
    {acc : UpdAcc} {nic : Nic} {c : NicCounters}
    (h : dictGet nc nic.name = some c) :
    ∃ n : Nic,
      updateNic nc dt acc nic =
        ⟨acc.outNics ++ [n], acc.totalRx + n.rxMbps, acc.totalTx + n.txMbps,
         dictSet acc.prev nic.name c⟩ ∧
      n.name = nic.name ∧ 0 ≤ n.rxMbps ∧ 0 ≤ n.txMbps ∧
      IsTenth n.rxMbps ∧ IsTenth n.txMbps ∧
      (¬ 0 < dt → n.rxMbps = 0 ∧ n.txMbps = 0) := by
  by_cases hdt : 0 < dt
  · cases hp : dictGet acc.prev nic.name with
    | none =>
        refine ⟨⟨nic.name, 0, 0⟩, ?_, rfl, le_refl 0, le_refl 0,
          IsTenth.zero, IsTenth.zero, fun h' => absurd hdt h'⟩
        simp [updateNic, h, hp, hdt]
    | some p =>
        refine ⟨⟨nic.name,
          round1 (max ((((c.rx : ℚ) - (p.rx : ℚ)) * 8) / (dt * 1000000)) 0),
          round1 (max ((((c.tx : ℚ) - (p.tx : ℚ)) * 8) / (dt * 1000000)) 0)⟩,
          ?_, rfl, round1_nonneg (le_max_right _ _),
          round1_nonneg (le_max_right _ _), round1_isTenth _, round1_isTenth _,
          fun h' => absurd hdt h'⟩
        simp [updateNic, h, hp, hdt]
  · refine ⟨⟨nic.name, 0, 0⟩, ?_, rfl, le_refl 0, le_refl 0,
      IsTenth.zero, IsTenth.zero, fun _ => ⟨rfl, rfl⟩⟩
    simp [updateNic, h, hdt]

/-- The exact rates written in the computing branch (`dt > 0` and a
previous counter recorded). -/
theorem updateNic_compute {nc : List (String × NicCounters)} {dt : ℚ}
    {acc : UpdAcc} {nic : Nic} {c p : NicCounters}
    (hdt : 0 < dt) (hc : dictGet nc nic.name = some c)
    (hp : dictGet acc.prev nic.name = some p) :
    updateNic nc dt acc nic =
      ⟨acc.outNics ++
        [⟨nic.name,
          round1 (max ((((c.rx : ℚ) - (p.rx : ℚ)) * 8) / (dt * 1000000)) 0),
          round1 (max ((((c.tx : ℚ) - (p.tx : ℚ)) * 8) / (dt * 1000000)) 0)⟩],
       acc.totalRx +
         round1 (max ((((c.rx : ℚ) - (p.rx : ℚ)) * 8) / (dt * 1000000)) 0),
       acc.totalTx +
         round1 (max ((((c.tx : ℚ) - (p.tx : ℚ)) * 8) / (dt * 1000000)) 0),
       dictSet acc.prev nic.name c⟩ := by
  simp [updateNic, hc, hp, hdt]

/-- The update loop preserves the NIC name sequence: the output carries
one record per input NIC, in order, same names. -/
theorem foldl_update_names (nc : List (String × NicCounters)) (dt : ℚ)
    (l : List Nic) : ∀ acc : UpdAcc,
    (List.foldl (updateNic nc dt) acc l).outNics.map Nic.name =
      acc.outNics.map Nic.name ++ l.map Nic.name := by
  induction l with
  | nil => intro acc; simp
  | cons nic tl ih =>
      intro acc
      rw [List.foldl_cons]
      cases hc : dictGet nc nic.name with
      | none => rw [updateNic_skip hc, ih]; simp
      | some c =>
          obtain ⟨n, heq, hname, -, -, -, -, -⟩ :=
            @updateNic_process nc dt acc nic c hc
          rw [heq, ih]
          simp [hname]

/-- The update loop appends exactly one output record per input NIC. -/
theorem foldl_update_out_ext (nc : List (String × NicCounters)) (dt : ℚ)
    (l : List Nic) : ∀ acc : UpdAcc, ∃ ext : List Nic,
    (List.foldl (updateNic nc dt) acc l).outNics = acc.outNics ++ ext ∧
    ext.length = l.length := by
  induction l with
  | nil => intro acc; exact ⟨[], by simp, rfl⟩
  | cons nic tl ih =>
      intro acc
      rw [List.foldl_cons]
      cases hc : dictGet nc nic.name with
      | none =>
          obtain ⟨ext, hext, hlen⟩ := ih { acc with outNics := acc.outNics ++ [nic] }
          rw [updateNic_skip hc]
          exact ⟨nic :: ext, by simp [hext], by simp [hlen]⟩
      | some c =>
          obtain ⟨n, heq, -, -, -, -, -, -⟩ :=
            @updateNic_process nc dt acc nic c hc
          rw [heq]
          obtain ⟨ext, hext, hlen⟩ :=
            ih ⟨acc.outNics ++ [n], acc.totalRx + n.rxMbps,
                acc.totalTx + n.txMbps, dictSet acc.prev nic.name c⟩
          exact ⟨n :: ext, by simpa using hext, by simp [hlen]⟩

/-- Totals / non-negativity / one-decimal invariant of the update loop:
as long as every still-unprocessed input NIC carries the `0.0`
placeholder rates that `collect_snapshot` writes, the running totals
equal the sums of the output rates, stay multiples of one tenth, and all
output rates are non-negative. -/
theorem foldl_update_inv (nc : List (String × NicCounters)) (dt : ℚ)
    (l : List Nic) : ∀ acc : UpdAcc,
    (∀ nic ∈ l, nic.rxMbps = 0 ∧ nic.txMbps = 0) →
    acc.totalRx = (acc.outNics.map Nic.rxMbps).sum →
    acc.totalTx = (acc.outNics.map Nic.txMbps).sum →
    IsTenth acc.totalRx → IsTenth acc.totalTx →
    (∀ n ∈ acc.outNics, 0 ≤ n.rxMbps ∧ 0 ≤ n.txMbps) →
    ((List.foldl (updateNic nc dt) acc l).totalRx =
       (((List.foldl (updateNic nc dt) acc l).outNics.map Nic.rxMbps).sum) ∧
     (List.foldl (updateNic nc dt) acc l).totalTx =
       (((List.foldl (updateNic nc dt) acc l).outNics.map Nic.txMbps).sum) ∧
     IsTenth (List.foldl (updateNic nc dt) acc l).totalRx ∧
     IsTenth (List.foldl (updateNic nc dt) acc l).totalTx ∧
     ∀ n ∈ (List.foldl (updateNic nc dt) acc l).outNics,
       0 ≤ n.rxMbps ∧ 0 ≤ n.txMbps) := by
  induction l with
  | nil => intro acc _ h1 h2 h3 h4 h5; exact ⟨h1, h2, h3, h4, h5⟩
  | cons nic tl ih =>
      intro acc hz h1 h2 h3 h4 h5
      have hznic := hz nic (List.mem_cons_self nic tl)
      have hztl : ∀ m ∈ tl, m.rxMbps = 0 ∧ m.txMbps = 0 :=
        fun m hm => hz m (List.mem_cons_of_mem nic hm)
      rw [List.foldl_cons]
      cases hc : dictGet nc nic.name with
      | none =>
          rw [updateNic_skip hc]
          refine ih _ hztl ?_ ?_ h3 h4 ?_
          · simp [h1, hznic.1]
          · simp [h2, hznic.2]
          · intro n hn
            rcases List.mem_append.mp hn with h | h
            · exact h5 n h
            · rcases List.mem_singleton.mp h with rfl
              exact ⟨le_of_eq hznic.1.symm, le_of_eq hznic.2.symm⟩
      | some c =>
          obtain ⟨n, heq, -, hrx, htx, htrx, httx, -⟩ :=
            @updateNic_process nc dt acc nic c hc
          rw [heq]
          refine ih _ hztl ?_ ?_ (h3.add htrx) (h4.add httx) ?_
          · simp [h1]
          · simp [h2]
          · intro m hm
            rcases List.mem_append.mp hm with h | h
            · exact h5 m h
            · rcases List.mem_singleton.mp h with rfl
              exact ⟨hrx, htx⟩

/-- When `dt` is not positive, every record the update loop writes has
zero rates (and placeholder-zero inputs stay zero). -/
theorem foldl_update_allzero (nc : List (String × NicCounters)) (dt : ℚ)
    (hdt : ¬ 0 < dt) (l : List Nic) : ∀ acc : UpdAcc,
    (∀ nic ∈ l, nic.rxMbps = 0 ∧ nic.txMbps = 0) →
    (∀ n ∈ acc.outNics, n.rxMbps = 0 ∧ n.txMbps = 0) →
    ∀ n ∈ (List.foldl (updateNic nc dt) acc l).outNics,
      n.rxMbps = 0 ∧ n.txMbps = 0 := by
  induction l with
  | nil => intro acc _ hacc; exact hacc
  | cons nic tl ih =>
      intro acc hz hacc
      have hznic := hz nic (List.mem_cons_self nic tl)
      have hztl : ∀ m ∈ tl, m.rxMbps = 0 ∧ m.txMbps = 0 :=
        fun m hm => hz m (List.mem_cons_of_mem nic hm)
      rw [List.foldl_cons]
      cases hc : dictGet nc nic.name with
      | none =>
          rw [updateNic_skip hc]
          refine ih _ hztl ?_
          intro n hn
          rcases List.mem_append.mp hn with h | h
          · exact hacc n h
          · rcases List.mem_singleton.mp h with rfl
            exact hznic
      | some c =>
          obtain ⟨n, heq, -, -, -, -, -, hzero⟩ :=
            @updateNic_process nc dt acc nic c hc
          rw [heq]
          refine ih _ hztl ?_
          intro m hm
          rcases List.mem_append.mp hm with h | h
          · exact hacc m h
          · rcases List.mem_singleton.mp h with rfl
            exact hzero hdt

/-- The update loop leaves `_prev` entries of names it never processes
untouched. -/
theorem foldl_update_prev_ne (nc : List (String × NicCounters)) (dt : ℚ)
    (name : String) (l : List Nic) : ∀ acc : UpdAcc,
    (∀ nic ∈ l, nic.name ≠ name) →
    dictGet (List.foldl (updateNic nc dt) acc l).prev name =
      dictGet acc.prev name := by
  induction l with
  | nil => intro acc _; rfl
  | cons nic tl ih =>
      intro acc hne
      have hnic : nic.name ≠ name := hne nic (List.mem_cons_self nic tl)
      have htl : ∀ m ∈ tl, m.name ≠ name :=
        fun m hm => hne m (List.mem_cons_of_mem nic hm)
      rw [List.foldl_cons]
      cases hc : dictGet nc nic.name with
      | none => rw [updateNic_skip hc, ih _ htl]
      | some c =>
          obtain ⟨n, heq, -, -, -, -, -, -⟩ :=
            @updateNic_process nc dt acc nic c hc
          rw [heq, ih _ htl]
          exact dictGet_dictSet_ne _ _ _ _ hnic

/-- Counters of every NIC present both in the snapshot and in
`net_counters` are recorded in `_prev` by the end of the loop, whatever
`dt` was. -/
theorem foldl_update_prev_rec (nc : List (String × NicCounters)) (dt : ℚ)
    (name : String) (c : NicCounters) (hc : dictGet nc name = some c)
    (l : List Nic) : ∀ acc : UpdAcc,
    ((∃ nic ∈ l, nic.name = name) ∨ dictGet acc.prev name = some c) →
    dictGet (List.foldl (updateNic nc dt) acc l).prev name = some c := by
  induction l with
  | nil =>
      intro acc h
      rcases h with ⟨nic, hmem, -⟩ | h
      · exact absurd hmem (List.not_mem_nil nic)
      · exact h
  | cons nic tl ih =>
      intro acc h
      rw [List.foldl_cons]
      cases hcnic : dictGet nc nic.name with
      | none =>
          rw [updateNic_skip hcnic]
          rcases h with ⟨m, hmem, hmname⟩ | h
          · rcases List.mem_cons.mp hmem with rfl | hmem'
            · rw [hmname] at hcnic
              rw [hcnic] at hc
              exact absurd hc (by simp)
            · exact ih _ (Or.inl ⟨m, hmem', hmname⟩)
          · exact ih _ (Or.inr h)
      | some c' =>
          obtain ⟨n, heq, -, -, -, -, -, -⟩ :=
            @updateNic_process nc dt acc nic c' hcnic
          rw [heq]
          by_cases hname : nic.name = name
          · rw [hname] at hcnic
            rw [hcnic] at hc
            injection hc with hcc
            refine ih _ (Or.inr ?_)
            rw [hname, dictGet_dictSet_self, hcc]
          · rcases h with ⟨m, hmem, hmname⟩ | h
            · rcases List.mem_cons.mp hmem with rfl | hmem'
              · exact absurd hmname hname
              · exact ih _ (Or.inl ⟨m, hmem', hmname⟩)
            · refine ih _ (Or.inr ?_)
              rw [dictGet_dictSet_ne _ _ _ _ hname]
              exact h

theorem update_eq (st : TrackerState) (snapshot : Snapshot)
    (config : MonitorConfig) (nc : List (String × NicCounters)) (now : ℚ) :
    NetworkRateTracker.update st snapshot config nc now =
      ({ nics := (List.foldl (updateNic nc (updateDt st now))
                    ⟨[], 0, 0, st.prev⟩ snapshot.nics).outNics
         networkRxMbps := round1 (List.foldl (updateNic nc (updateDt st now))
                    ⟨[], 0, 0, st.prev⟩ snapshot.nics).totalRx
         networkTxMbps := round1 (List.foldl (updateNic nc (updateDt st now))
                    ⟨[], 0, 0, st.prev⟩ snapshot.nics).totalTx },
       { prev := (List.foldl (updateNic nc (updateDt st now))
                    ⟨[], 0, 0, st.prev⟩ snapshot.nics).prev
         prevTime := now
         initialized := true }) := rfl

theorem updateDt_pos {st : TrackerState} {now : ℚ}
    (hinit : st.initialized = true) (hdt : 0 < now - st.prevTime) :
    updateDt st now = now - st.prevTime := by
  simp [updateDt, hinit, hdt]

theorem updateDt_zero {st : TrackerState} {now : ℚ}
    (hfresh : st.initialized = false ∨ now - st.prevTime ≤ 0) :
    updateDt st now = 0 := by
  rcases hfresh with h | h
  · simp [updateDt, h]
  · simp [updateDt, not_lt.mpr h]

theorem update_fst_nics (st : TrackerState) (snapshot : Snapshot)
    (config : MonitorConfig) (nc : List (String × NicCounters)) (now : ℚ) :
    (NetworkRateTracker.update st snapshot config nc now).1.nics =
      (List.foldl (updateNic nc (updateDt st now))
        ⟨[], 0, 0, st.prev⟩ snapshot.nics).outNics := rfl

theorem update_fst_rx (st : TrackerState) (snapshot : Snapshot)
    (config : MonitorConfig) (nc : List (String × NicCounters)) (now : ℚ) :
    (NetworkRateTracker.update st snapshot config nc now).1.networkRxMbps =
      round1 (List.foldl (updateNic nc (updateDt st now))
        ⟨[], 0, 0, st.prev⟩ snapshot.nics).totalRx := rfl

theorem update_fst_tx (st : TrackerState) (snapshot : Snapshot)
    (config : MonitorConfig) (nc : List (String × NicCounters)) (now : ℚ) :
    (NetworkRateTracker.update st snapshot config nc now).1.networkTxMbps =
      round1 (List.foldl (updateNic nc (updateDt st now))
        ⟨[], 0, 0, st.prev⟩ snapshot.nics).totalTx := rfl

theorem update_snd_prev (st : TrackerState) (snapshot : Snapshot)
    (config : MonitorConfig) (nc : List (String × NicCounters)) (now : ℚ) :
    (NetworkRateTracker.update st snapshot config nc now).2.prev =
      (List.foldl (updateNic nc (updateDt st now))
        ⟨[], 0, 0, st.prev⟩ snapshot.nics).prev := rfl

theorem update_snd_prevTime (st : TrackerState) (snapshot : Snapshot)
    (config : MonitorConfig) (nc : List (String × NicCounters)) (now : ℚ) :
    (NetworkRateTracker.update st snapshot config nc now).2.prevTime = now := rfl

theorem update_snd_initialized (st : TrackerState) (snapshot : Snapshot)
    (config : MonitorConfig) (nc : List (String × NicCounters)) (now : ℚ) :
    (NetworkRateTracker.update st snapshot config nc now).2.initialized = true := rfl

/-- Elements already in the output list before the loop continues are
left in place. -/
theorem foldl_update_getElem_lt (nc : List (String × NicCounters)) (dt : ℚ)
    (l : List Nic) (acc : UpdAcc) (i : Nat) (h : i < acc.outNics.length) :
    (List.foldl (updateNic nc dt) acc l).outNics[i]? = acc.outNics[i]? := by
  obtain ⟨ext, hext, -⟩ := foldl_update_out_ext nc dt l acc
  rw [hext, List.getElem?_append_left h]

/-- C1: on an `update` call of a primed tracker (`_initialized` true)
with positive elapsed time `dt = now - _prev_time`, a NIC of the
snapshot whose byte counters are available now (`c`) and recorded from
the previous call (`p`) reports exactly
`round1 (max ((cur - prev) * 8 / (dt * 1000000)) 0)` for rx and tx
(lines 320-327); the reported rate is never negative, and it is exactly
`0` whenever the counter did not increase (counter reset). -/
theorem c1_rate_clamped (st : TrackerState) (snapshot : Snapshot)
    (config : MonitorConfig) (netCounters : List (String × NicCounters))
    (now : ℚ) (l₁ l₂ : List Nic) (nic : Nic) (c p : NicCounters)
    (hinit : st.initialized = true)
    (hdt : 0 < now - st.prevTime)
    (hsplit : snapshot.nics = l₁ ++ nic :: l₂)
    (hnodup : (snapshot.nics.map Nic.name).Nodup)
    (hc : dictGet netCounters nic.name = some c)
    (hp : dictGet st.prev nic.name = some p) :
    ((NetworkRateTracker.update st snapshot config netCounters now).1.nics[l₁.length]? =
      some ⟨nic.name,
        round1 (max ((((c.rx : ℚ) - (p.rx : ℚ)) * 8) /
          ((now - st.prevTime) * 1000000)) 0),
        round1 (max ((((c.tx : ℚ) - (p.tx : ℚ)) * 8) /
          ((now - st.prevTime) * 1000000)) 0)⟩) ∧
    (0 ≤ round1 (max ((((c.rx : ℚ) - (p.rx : ℚ)) * 8) /
        ((now - st.prevTime) * 1000000)) 0)) ∧
    (0 ≤ round1 (max ((((c.tx : ℚ) - (p.tx : ℚ)) * 8) /
        ((now - st.prevTime) * 1000000)) 0)) ∧
    (c.rx ≤ p.rx →
      round1 (max ((((c.rx : ℚ) - (p.rx : ℚ)) * 8) /
        ((now - st.prevTime) * 1000000)) 0) = 0) ∧
    (c.tx ≤ p.tx →
      round1 (max ((((c.tx : ℚ) - (p.tx : ℚ)) * 8) /
        ((now - st.prevTime) * 1000000)) 0) = 0) := by
  have hden : (0 : ℚ) ≤ (now - st.prevTime) * 1000000 := by positivity
  have hclamp : ∀ a b : Nat, a ≤ b →
      round1 (max ((((a : ℚ) - (b : ℚ)) * 8) /
        ((now - st.prevTime) * 1000000)) 0) = 0 := by
    intro a b hab
    have hnum : ((a : ℚ) - (b : ℚ)) * 8 ≤ 0 := by
      have hab' : (a : ℚ) ≤ (b : ℚ) := by exact_mod_cast hab
      linarith
    have hq : (((a : ℚ) - (b : ℚ)) * 8) / ((now - st.prevTime) * 1000000) ≤ 0 :=
      div_nonpos_iff.mpr (Or.inr ⟨hnum, hden⟩)
    rw [max_eq_right hq, round1_zero]
  refine ⟨?_, round1_nonneg (le_max_right _ _), round1_nonneg (le_max_right _ _),
    hclamp c.rx p.rx, hclamp c.tx p.tx⟩
  have hdisj : ∀ m ∈ l₁, m.name ≠ nic.name := by
    rw [hsplit, List.map_append] at hnodup
    have h3 := (List.nodup_append.mp hnodup).2.2
    intro m hm heq
    exact h3 (List.mem_map_of_mem Nic.name hm)
      (by rw [heq]
          exact List.mem_map_of_mem Nic.name (List.mem_cons_self nic l₂))
  have hdtv : updateDt st now = now - st.prevTime := updateDt_pos hinit hdt
  rw [update_fst_nics, hdtv, hsplit, List.foldl_append, List.foldl_cons]
  set acc₁ := List.foldl (updateNic netCounters (now - st.prevTime))
      (⟨[], 0, 0, st.prev⟩ : UpdAcc) l₁ with hacc₁def
  have hprev₁ : dictGet acc₁.prev nic.name = some p := by
    rw [hacc₁def,
      foldl_update_prev_ne netCounters (now - st.prevTime) nic.name l₁ _ hdisj]
    exact hp
  have hlen : acc₁.outNics.length = l₁.length := by
    obtain ⟨ext₁, hext₁, hlen₁⟩ :=
      foldl_update_out_ext netCounters (now - st.prevTime) l₁ ⟨[], 0, 0, st.prev⟩
    rw [hacc₁def, hext₁]
    simpa using hlen₁
  have hstep := @updateNic_compute netCounters (now - st.prevTime) acc₁ nic c p
    hdt hc hprev₁
  rw [foldl_update_getElem_lt netCounters (now - st.prevTime) l₂ _ l₁.length
        (by rw [hstep]; simp [hlen]),
      hstep]
  simp only []
  rw [List.getElem?_append_right (le_of_eq hlen)]
  simp [hlen]

theorem c1_rate_clamped_witness :
    ((NetworkRateTracker.update ⟨[("eth0", ⟨100, 200⟩)], 0, true⟩
        ⟨[⟨"eth0", 0, 0⟩], 0, 0⟩ ⟨some 5, none, none, none, some 1⟩
        [("eth0", ⟨50, 200⟩)] 1).1.nics[0]? = some ⟨"eth0", 0, 0⟩) := by
  have h := c1_rate_clamped ⟨[("eth0", ⟨100, 200⟩)], 0, true⟩
      ⟨[⟨"eth0", 0, 0⟩], 0, 0⟩ ⟨some 5, none, none, none, some 1⟩
      [("eth0", ⟨50, 200⟩)] 1 [] [] ⟨"eth0", 0, 0⟩ ⟨50, 200⟩ ⟨100, 200⟩
      rfl (by norm_num) rfl (by decide) (by decide) (by decide)
  simp only [List.length_nil] at h
  rw [h.1, h.2.2.2.1 (by norm_num), h.2.2.2.2 (by norm_num)]

/-- C2: after any `update` call on a snapshot whose NIC entries carry the
`0.0` placeholder rates written by `collect_snapshot`, the aggregate
`networkRxMbps` (resp. `networkTxMbps`) equals the sum of the per-NIC
`rxMbps` (resp. `txMbps`) of the same snapshot, every per-NIC rate is
non-negative, and the output lists exactly the input NICs (same names,
same order) — NICs without a computed rate appear with rate `0`, they are
not dropped. -/
theorem c2_totals_nonneg (st : TrackerState) (snapshot : Snapshot)
    (config : MonitorConfig) (netCounters : List (String × NicCounters))
    (now : ℚ)
    (hzero : ∀ nic ∈ snapshot.nics, nic.rxMbps = 0 ∧ nic.txMbps = 0) :
    ((NetworkRateTracker.update st snapshot config netCounters now).1.networkRxMbps =
      (((NetworkRateTracker.update st snapshot config netCounters now).1.nics).map
        Nic.rxMbps).sum) ∧
    ((NetworkRateTracker.update st snapshot config netCounters now).1.networkTxMbps =
      (((NetworkRateTracker.update st snapshot config netCounters now).1.nics).map
        Nic.txMbps).sum) ∧
    (∀ n ∈ (NetworkRateTracker.update st snapshot config netCounters now).1.nics,
      0 ≤ n.rxMbps ∧ 0 ≤ n.txMbps) ∧
    ((NetworkRateTracker.update st snapshot config netCounters now).1.nics.map
      Nic.name = snapshot.nics.map Nic.name) := by
  obtain ⟨h1, h2, h3, h4, h5⟩ :=
    foldl_update_inv netCounters (updateDt st now) snapshot.nics
      ⟨[], 0, 0, st.prev⟩ hzero (by simp) (by simp) IsTenth.zero IsTenth.zero
      (by intro n hn; exact absurd hn (List.not_mem_nil n))
  refine ⟨?_, ?_, ?_, ?_⟩
  · rw [update_fst_rx, update_fst_nics, round1_eq_self h3, h1]
  · rw [update_fst_tx, update_fst_nics, round1_eq_self h4, h2]
  · rw [update_fst_nics]
    exact h5
  · rw [update_fst_nics]
    have := foldl_update_names netCounters (updateDt st now) snapshot.nics
      ⟨[], 0, 0, st.prev⟩
    simpa using this

theorem c2_totals_nonneg_witness :
    ((NetworkRateTracker.update ⟨[("eth0", ⟨100, 200⟩)], 0, true⟩
        ⟨[⟨"eth0", 0, 0⟩, ⟨"eth1", 0, 0⟩], 0, 0⟩
        ⟨some 5, none, none, none, some 1⟩
        [("eth0", ⟨900100, 200⟩)] 1).1.networkRxMbps =
      (((NetworkRateTracker.update ⟨[("eth0", ⟨100, 200⟩)], 0, true⟩
        ⟨[⟨"eth0", 0, 0⟩, ⟨"eth1", 0, 0⟩], 0, 0⟩
        ⟨some 5, none, none, none, some 1⟩
        [("eth0", ⟨900100, 200⟩)] 1).1.nics).map Nic.rxMbps).sum) ∧
    ((NetworkRateTracker.update ⟨[("eth0", ⟨100, 200⟩)], 0, true⟩
        ⟨[⟨"eth0", 0, 0⟩, ⟨"eth1", 0, 0⟩], 0, 0⟩
        ⟨some 5, none, none, none, some 1⟩
        [("eth0", ⟨900100, 200⟩)] 1).1.nics.map Nic.name = ["eth0", "eth1"]) := by
  have h := c2_totals_nonneg ⟨[("eth0", ⟨100, 200⟩)], 0, true⟩
      ⟨[⟨"eth0", 0, 0⟩, ⟨"eth1", 0, 0⟩], 0, 0⟩
      ⟨some 5, none, none, none, some 1⟩
      [("eth0", ⟨900100, 200⟩)] 1 (by decide)
  exact ⟨h.1, h.2.2.2⟩

/-- C3: an `update` call on an uninitialized tracker (first call ever) or
with non-positive elapsed time assigns rate `0.0` to every NIC of the
snapshot (whose entries carry the `0.0` placeholders written by
`collect_snapshot`), whatever the byte counters are; the call still
records the current counters of every NIC present in `net_counters` and
the current timestamp, and marks the tracker initialized. -/
theorem c3_first_update_zero (st : TrackerState) (snapshot : Snapshot)
    (config : MonitorConfig) (netCounters : List (String × NicCounters))
    (now : ℚ)
    (hfresh : st.initialized = false ∨ now - st.prevTime ≤ 0)
    (hzero : ∀ nic ∈ snapshot.nics, nic.rxMbps = 0 ∧ nic.txMbps = 0) :
    (∀ n ∈ (NetworkRateTracker.update st snapshot config netCounters now).1.nics,
      n.rxMbps = 0 ∧ n.txMbps = 0) ∧
    ((NetworkRateTracker.update st snapshot config netCounters now).2.prevTime = now) ∧
    ((NetworkRateTracker.update st snapshot config netCounters now).2.initialized = true) ∧
    (∀ nic ∈ snapshot.nics, ∀ c : NicCounters,
      dictGet netCounters nic.name = some c →
      dictGet (NetworkRateTracker.update st snapshot config netCounters now).2.prev
        nic.name = some c) := by
  refine ⟨?_, update_snd_prevTime st snapshot config netCounters now,
    update_snd_initialized st snapshot config netCounters now, ?_⟩
  · rw [update_fst_nics, updateDt_zero hfresh]
    exact foldl_update_allzero netCounters 0 (lt_irrefl 0) snapshot.nics
      ⟨[], 0, 0, st.prev⟩ hzero
      (by intro n hn; exact absurd hn (List.not_mem_nil n))
  · intro nic hmem c hc
    rw [update_snd_prev]
    exact foldl_update_prev_rec netCounters (updateDt st now) nic.name c hc
      snapshot.nics ⟨[], 0, 0, st.prev⟩ (Or.inl ⟨nic, hmem, rfl⟩)

theorem c3_first_update_zero_witness :
    (∀ n ∈ (NetworkRateTracker.update TrackerState.mk0
        ⟨[⟨"eth0", 0, 0⟩], 0, 0⟩ ⟨some 5, none, none, none, some 1⟩
        [("eth0", ⟨987654, 123456⟩)] 42).1.nics,
      n.rxMbps = 0 ∧ n.txMbps = 0) ∧
    ((NetworkRateTracker.update TrackerState.mk0
        ⟨[⟨"eth0", 0, 0⟩], 0, 0⟩ ⟨some 5, none, none, none, some 1⟩
        [("eth0", ⟨987654, 123456⟩)] 42).2.prevTime = 42) ∧
    (dictGet (NetworkRateTracker.update TrackerState.mk0
        ⟨[⟨"eth0", 0, 0⟩], 0, 0⟩ ⟨some 5, none, none, none, some 1⟩
        [("eth0", ⟨987654, 123456⟩)] 42).2.prev "eth0" =
      some ⟨987654, 123456⟩) := by
  have h := c3_first_update_zero TrackerState.mk0
      ⟨[⟨"eth0", 0, 0⟩], 0, 0⟩ ⟨some 5, none, none, none, some 1⟩
      [("eth0", ⟨987654, 123456⟩)] 42 (Or.inl rfl) (by decide)
  exact ⟨h.1, h.2.1,
    h.2.2.2 ⟨"eth0", 0, 0⟩ (List.mem_singleton.mpr rfl) ⟨987654, 123456⟩ (by decide)⟩

/-- The refresh block always hands control back to the loop (it never
exits the process), reports that a refresh was attempted, and leaves
`known_config_version` untouched. -/
theorem refreshConfig_next (override : Option Nat) (st : LoopState)
    (ctrans : List ConfigResp) :
    ∃ st' ct', refreshConfig override st ctrans = (TickOutcome.next st' true, ct') ∧
      st'.knownVersion = st.knownVersion := by
  match ctrans with
  | [] => exact ⟨st, [], rfl, rfl⟩
  | ConfigResp.netErr :: rest => exact ⟨st, rest, rfl, rfl⟩
  | ConfigResp.resp code cfg :: rest =>
      by_cases h200 : code = 200
      · by_cases hne : cfg ≠ st.config
        · refine ⟨⟨st.knownVersion, cfg,
            if override = none ∧ cfg.reportIntervalSec.getD 5 ≠ st.interval then
              cfg.reportIntervalSec.getD 5 else st.interval⟩, rest, ?_, rfl⟩
          simp [refreshConfig, h200, hne]
        · exact ⟨st, rest, by simp [refreshConfig, h200, hne], rfl⟩
      · exact ⟨st, rest, by simp [refreshConfig, h200], rfl⟩

/-- As long as every successful report carries a non-negative
`configVersion`, the refresh flags produced by the report loop coincide
with the spec's description (record on first success, then refresh
exactly on a version change).  The invariant ties the code's `-1`
sentinel to the spec's "no version recorded yet". -/
theorem runTicks_flags_spec (override : Option Nat) :
    ∀ (rresps : List ReportResp) (ctrans : List ConfigResp) (st : LoopState)
      (recorded : Option Int),
      (∀ code body, ReportResp.resp code body ∈ rresps → code = 200 →
        0 ≤ body.getD 0) →
      ((st.knownVersion < 0 ∧ recorded = none) ∨
        (0 ≤ st.knownVersion ∧ recorded = some st.knownVersion)) →
      (runTicks override st rresps ctrans).flags = specRefreshFlags recorded rresps := by
  intro rresps
  induction rresps with
  | nil => intro ctrans st recorded _ _; rfl
  | cons r rest ih =>
      intro ctrans st recorded hnn hinv
      have hnnrest : ∀ code body, ReportResp.resp code body ∈ rest → code = 200 →
          0 ≤ body.getD 0 :=
        fun code body hmem h200 =>
          hnn code body (List.mem_cons_of_mem r hmem) h200
      match r with
      | ReportResp.netErr =>
          rcases hinv with ⟨hlt, rfl⟩ | ⟨hge, rfl⟩
          · simp only [runTicks, loopTick, specRefreshFlags]
            rw [ih ctrans st none hnnrest (Or.inl ⟨hlt, rfl⟩)]
          · simp only [runTicks, loopTick, specRefreshFlags]
            rw [ih ctrans st (some st.knownVersion) hnnrest (Or.inr ⟨hge, rfl⟩)]
      | ReportResp.resp code body =>
          by_cases h200 : code = 200
          · subst h200
            have hsv : 0 ≤ body.getD 0 :=
              hnn 200 body (List.mem_cons_self _ _) rfl
            rcases hinv with ⟨hlt, rfl⟩ | ⟨hge, rfl⟩
            · have hbr : loopTick override st (ReportResp.resp 200 body) ctrans =
                  (TickOutcome.next { st with knownVersion := body.getD 0 } false,
                    ctrans) := by
                simp [loopTick, hlt]
              simp only [runTicks, hbr, specRefreshFlags, if_pos rfl]
              rw [ih ctrans _ (some (body.getD 0)) hnnrest (Or.inr ⟨hsv, rfl⟩)]
              simp
            · have hnlt : ¬ st.knownVersion < 0 := not_lt.mpr hge
              by_cases hne : body.getD 0 ≠ st.knownVersion
              · obtain ⟨st', ct', heq, hkv⟩ :=
                  refreshConfig_next override { st with knownVersion := body.getD 0 }
                    ctrans
                have hbr : loopTick override st (ReportResp.resp 200 body) ctrans =
                    (TickOutcome.next st' true, ct') := by
                  simp only [loopTick, if_pos rfl, if_neg hnlt, if_pos hne]
                  exact heq
                simp only [runTicks, hbr, specRefreshFlags, if_pos rfl]
                rw [ih ct' st' (some (body.getD 0)) hnnrest (Or.inr (by rw [hkv]; exact ⟨hsv, rfl⟩))]
                simp [hne]
              · push_neg at hne
                have hbr : loopTick override st (ReportResp.resp 200 body) ctrans =
                    (TickOutcome.next st false, ctrans) := by
                  simp [loopTick, hnlt, hne]
                simp only [runTicks, hbr, specRefreshFlags, if_pos rfl]
                rw [ih ctrans st (some st.knownVersion) hnnrest (Or.inr ⟨hge, rfl⟩)]
                simp [hne]
          · by_cases h401 : code = 401
            · subst h401
              have hbr : loopTick override st (ReportResp.resp 401 body) ctrans =
                  (TickOutcome.exits 1, ctrans) := by
                simp [loopTick]
              simp [runTicks, hbr, specRefreshFlags]
            · have hbr : loopTick override st (ReportResp.resp code body) ctrans =
                  (TickOutcome.next st false, ctrans) := by
                simp [loopTick, h200, h401]
              rcases hinv with ⟨hlt, rfl⟩ | ⟨hge, rfl⟩
              · simp only [runTicks, hbr, specRefreshFlags, if_neg h200, if_neg h401]
                rw [ih ctrans st none hnnrest (Or.inl ⟨hlt, rfl⟩)]
              · simp only [runTicks, hbr, specRefreshFlags, if_neg h200, if_neg h401]
                rw [ih ctrans st (some st.knownVersion) hnnrest (Or.inr ⟨hge, rfl⟩)]

/-- C4 counterexample: `known_config_version` starts at the sentinel
`-1`, so a first successful report carrying `configVersion = -1` is
recorded without leaving the "first report" branch; the next successful
report with the different version `5` then again hits the
`known_config_version < 0` branch and triggers no refresh, although the
claim requires one (the spec-side flags are `[false, true]`, the code
produces `[false, false]`). -/
theorem c4_version_refresh_counterexample :
    (runTicks none ⟨-1, ⟨some 5, none, none, none, some 1⟩, 5⟩
        [ReportResp.resp 200 (some (-1)), ReportResp.resp 200 (some 5)] []).flags =
      [false, false] ∧
    specRefreshFlags none
        [ReportResp.resp 200 (some (-1)), ReportResp.resp 200 (some 5)] =
      [false, true] := by
  exact ⟨rfl, rfl⟩

/-- C4 (amended): provided every successful report carries a
non-negative `configVersion` (so the `-1` sentinel is never confused
with a server version), the loop refreshes exactly as claimed: the
first successful report only records the version, and each subsequent
successful report triggers a refresh attempt iff its version differs
from the recorded one; failed reports trigger nothing. -/
theorem c4_version_refresh (override : Option Nat) (cfg : MonitorConfig)
    (interval : Nat) (rresps : List ReportResp) (ctrans : List ConfigResp)
    (hnn : ∀ code body, ReportResp.resp code body ∈ rresps → code = 200 →
      0 ≤ body.getD 0) :
    (runTicks override ⟨-1, cfg, interval⟩ rresps ctrans).flags =
      specRefreshFlags none rresps :=
  runTicks_flags_spec override rresps ctrans ⟨-1, cfg, interval⟩ none hnn
    (Or.inl ⟨by norm_num, rfl⟩)

/-- C4 witness: the spec's own scenario — `configVersion: 1` on the
first report, `configVersion: 2` on the second — produces exactly one
refresh attempt, after the second report and not before the first. -/
theorem c4_version_refresh_witness :
    (runTicks none ⟨-1, ⟨some 5, none, none, none, some 1⟩, 5⟩
        [ReportResp.resp 200 (some 1), ReportResp.resp 200 (some 2)]
        [ConfigResp.netErr]).flags = [false, true] := by
  have h := c4_version_refresh none ⟨some 5, none, none, none, some 1⟩ 5
      [ReportResp.resp 200 (some 1), ReportResp.resp 200 (some 2)]
      [ConfigResp.netErr]
      (by
        intro code body hmem h200
        simp only [List.mem_cons, List.not_mem_nil, or_false] at hmem
        rcases hmem with heq | heq <;>
          (injection heq with h1 h2
           subst h2
           decide))
  exact h.trans (by decide)

/-- Unfolding of the fetch loop on a retried (non-terminal) response. -/
theorem fetchInitialGo_retry_step (c : Nat) (r : ConfigResp)
    (rest : List ConfigResp) (h : terminalResp r = false) :
    fetchInitialGo c (r :: rest) =
      ((fetchInitialGo (c + 1) rest).1,
       (if c + 1 > 60 then [FetchEvent.warn (c + 1)] else []) ++
         FetchEvent.sleep 5 :: (fetchInitialGo (c + 1) rest).2) := by
  cases r with
  | netErr => rfl
  | resp code cfg =>
      simp only [terminalResp, Bool.or_eq_false_iff, decide_eq_false_iff_not] at h
      simp [fetchInitialGo, h.1, h.2]

/-- Unfolding of the fetch loop on an HTTP 200 response. -/
theorem fetchInitialGo_success_step (c : Nat) (cfg : MonitorConfig)
    (rest : List ConfigResp) :
    fetchInitialGo c (ConfigResp.resp 200 cfg :: rest) =
      (some (FetchResult.gotConfig cfg), []) := rfl

/-- Unfolding of the fetch loop on an HTTP 401 response. -/
theorem fetchInitialGo_auth_step (c : Nat) (cfg : MonitorConfig)
    (rest : List ConfigResp) :
    fetchInitialGo c (ConfigResp.resp 401 cfg :: rest) =
      (some (FetchResult.exits 1), []) := rfl

/-- A prefix of non-terminal responses is retried through, whatever the
running count is. -/
theorem fetchInitialGo_skips_retries (pre : List ConfigResp) :
    (∀ r ∈ pre, terminalResp r = false) →
    ∀ (c : Nat) (l : List ConfigResp),
      (fetchInitialGo c (pre ++ l)).1 = (fetchInitialGo (c + pre.length) l).1 := by
  induction pre with
  | nil => intro _ c l; simp
  | cons r rest ih =>
      intro hpre c l
      have hr : terminalResp r = false := hpre r (List.mem_cons_self r rest)
      have hrest : ∀ s ∈ rest, terminalResp s = false :=
        fun s hs => hpre s (List.mem_cons_of_mem r hs)
      rw [List.cons_append, fetchInitialGo_retry_step c r (rest ++ l) hr]
      simp only []
      rw [ih hrest (c + 1) l]
      have harith : c + 1 + rest.length = c + (r :: rest).length := by
        simp [List.length_cons]
        omega
      rw [harith]

/-- The refresh block consumes exactly one config-endpoint response. -/
theorem refreshConfig_consumes_one (override : Option Nat) (st : LoopState)
    (r : ConfigResp) (rest : List ConfigResp) :
    (refreshConfig override st (r :: rest)).2 = rest := by
  cases r with
  | netErr => rfl
  | resp code cfg =>
      by_cases h200 : code = 200
      · subst h200
        by_cases hne : cfg ≠ st.config
        · simp [refreshConfig, hne]
        · simp [refreshConfig, hne]
      · simp [refreshConfig, h200]

/-- C5: the version-triggered refresh block performs exactly one fetch
attempt (it consumes exactly one response of the config-endpoint script
and no more), never exits the loop (any failure — transport error or
non-success status, 401 included — is swallowed), and replaces the
current config exactly when an HTTP 200 body differs from it by full
structural equality; on an identical body or on any failure the current
config object is kept unchanged. -/
theorem c5_refresh_semantics (override : Option Nat) (st : LoopState)
    (r : ConfigResp) (rest : List ConfigResp) :
    ((refreshConfig override st (r :: rest)).2 = rest) ∧
    (TickOutcome.isExit (refreshConfig override st (r :: rest)).1 = false) ∧
    (∀ cfg, r = ConfigResp.resp 200 cfg → cfg ≠ st.config →
      (refreshConfig override st (r :: rest)).1 =
        TickOutcome.next ⟨st.knownVersion, cfg,
          if override = none ∧ cfg.reportIntervalSec.getD 5 ≠ st.interval then
            cfg.reportIntervalSec.getD 5 else st.interval⟩ true) ∧
    (∀ cfg, r = ConfigResp.resp 200 cfg → cfg = st.config →
      (refreshConfig override st (r :: rest)).1 = TickOutcome.next st true) ∧
    (∀ code cfg, r = ConfigResp.resp code cfg → code ≠ 200 →
      (refreshConfig override st (r :: rest)).1 = TickOutcome.next st true) ∧
    (r = ConfigResp.netErr →
      (refreshConfig override st (r :: rest)).1 = TickOutcome.next st true) := by
  obtain ⟨st', ct', heqr, -⟩ := refreshConfig_next override st (r :: rest)
  refine ⟨refreshConfig_consumes_one override st r rest, ?_, ?_, ?_, ?_, ?_⟩
  · rw [heqr]
    rfl
  · intro cfg hr hne
    subst hr
    simp [refreshConfig, hne]
  · intro cfg hr heq
    subst hr
    subst heq
    simp [refreshConfig]
  · intro code cfg hr hne
    subst hr
    simp [refreshConfig, hne]
  · intro hr
    subst hr
    rfl

theorem c5_refresh_semantics_witness :
    ((refreshConfig none ⟨3, ⟨some 5, none, none, none, some 1⟩, 5⟩
        [ConfigResp.resp 200 ⟨some 10, none, none, none, some 2⟩,
         ConfigResp.netErr]).2 = [ConfigResp.netErr]) ∧
    ((refreshConfig none ⟨3, ⟨some 5, none, none, none, some 1⟩, 5⟩
        [ConfigResp.resp 200 ⟨some 10, none, none, none, some 2⟩,
         ConfigResp.netErr]).1 =
      TickOutcome.next ⟨3, ⟨some 10, none, none, none, some 2⟩, 10⟩ true) := by
  have h := c5_refresh_semantics none ⟨3, ⟨some 5, none, none, none, some 1⟩, 5⟩
      (ConfigResp.resp 200 ⟨some 10, none, none, none, some 2⟩) [ConfigResp.netErr]
  have hi := h.2.2.1 ⟨some 10, none, none, none, some 2⟩ rfl (by decide)
  exact ⟨h.1, hi.trans (by decide)⟩

/-- C6 counterexample: a 401 at a version-triggered refresh config-fetch
is NOT terminal.  With a recorded version `1`, a successful report
carrying version `2` triggers a refresh; the refresh fetch answers 401,
yet the tick ends in `next` (the loop keeps running on the old config)
instead of an exit — the `if resp.status_code == 200:` block of
lines 561-569 has no 401 branch and the failure is silently dropped. -/
theorem c6_unauthorized_counterexample :
    (loopTick none ⟨1, ⟨some 5, none, none, none, some 1⟩, 5⟩
        (ReportResp.resp 200 (some 2))
        [ConfigResp.resp 401 ⟨some 9, none, none, none, some 9⟩]) =
      (TickOutcome.next ⟨2, ⟨some 5, none, none, none, some 1⟩, 5⟩ true, []) ∧
    TickOutcome.isExit
      (loopTick none ⟨1, ⟨some 5, none, none, none, some 1⟩, 5⟩
        (ReportResp.resp 200 (some 2))
        [ConfigResp.resp 401 ⟨some 9, none, none, none, some 9⟩]).1 = false := by
  exact ⟨rfl, rfl⟩

/-- C6 (amended): a 401 is terminal at the *initial* config fetch and at
report time — the initial fetch loop, after any number of retried
non-terminal responses, exits with code 1 on a 401; the report loop
exits with code 1 on a 401 report response.  (A 401 during a
version-triggered refresh fetch is swallowed, see the counterexample.) -/
theorem c6_unauthorized_terminal (count : Nat) (pre : List ConfigResp)
    (cfg : MonitorConfig) (rest : List ConfigResp)
    (hpre : ∀ r ∈ pre, terminalResp r = false)
    (override : Option Nat) (st : LoopState) (body : Option Int)
    (ctrans : List ConfigResp) :
    ((fetchInitialGo count (pre ++ ConfigResp.resp 401 cfg :: rest)).1 =
      some (FetchResult.exits 1)) ∧
    ((loopTick override st (ReportResp.resp 401 body) ctrans).1 =
      TickOutcome.exits 1) := by
  constructor
  · rw [fetchInitialGo_skips_retries pre hpre count
        (ConfigResp.resp 401 cfg :: rest),
      fetchInitialGo_auth_step]
  · simp [loopTick]

theorem c6_unauthorized_terminal_witness :
    ((fetchInitialGo 0 [ConfigResp.netErr,
        ConfigResp.resp 500 ⟨some 9, none, none, none, some 9⟩,
        ConfigResp.resp 401 ⟨some 9, none, none, none, some 9⟩,
        ConfigResp.resp 200 ⟨some 9, none, none, none, some 9⟩]).1 =
      some (FetchResult.exits 1)) ∧
    ((loopTick none ⟨0, ⟨some 5, none, none, none, some 1⟩, 5⟩
        (ReportResp.resp 401 (some 3)) []).1 = TickOutcome.exits 1) := by
  have h := c6_unauthorized_terminal 0
      [ConfigResp.netErr, ConfigResp.resp 500 ⟨some 9, none, none, none, some 9⟩]
      ⟨some 9, none, none, none, some 9⟩
      [ConfigResp.resp 200 ⟨some 9, none, none, none, some 9⟩]
      (by decide) none ⟨0, ⟨some 5, none, none, none, some 1⟩, 5⟩ (some 3) []
  exact h

/-- The result of the initial fetch loop does not depend on the running
`retry_count`: the post-60 warning is purely observational. -/
theorem fetchInitialGo_result_count (l : List ConfigResp) :
    ∀ c c' : Nat, (fetchInitialGo c l).1 = (fetchInitialGo c' l).1 := by
  induction l with
  | nil => intro c c'; rfl
  | cons r rest ih =>
      intro c c'
      by_cases hterm : terminalResp r = true
      · cases r with
        | netErr => simp [terminalResp] at hterm
        | resp code cfg =>
            simp only [terminalResp, Bool.or_eq_true, decide_eq_true_eq] at hterm
            rcases hterm with h200 | h401
            · subst h200
              rw [fetchInitialGo_success_step, fetchInitialGo_success_step]
            · subst h401
              rw [fetchInitialGo_auth_step, fetchInitialGo_auth_step]
      · have hf : terminalResp r = false := by
          cases hb : terminalResp r
          · rfl
          · exact absurd hb hterm
        rw [fetchInitialGo_retry_step c r rest hf,
          fetchInitialGo_retry_step c' r rest hf]
        exact ih (c + 1) (c' + 1)

/-- Every wait of the initial fetch loop is a fixed `sleep 5`, one per
retried attempt, independently of the warning events. -/
theorem fetchInitialGo_sleeps (l : List ConfigResp) :
    ∀ c : Nat, (fetchInitialGo c l).2.filter isSleepEvent =
      List.replicate ((l.takeWhile (fun r => !terminalResp r)).length)
        (FetchEvent.sleep 5) := by
  induction l with
  | nil => intro c; rfl
  | cons r rest ih =>
      intro c
      by_cases hterm : terminalResp r = true
      · cases r with
        | netErr => simp [terminalResp] at hterm
        | resp code cfg =>
            simp only [terminalResp, Bool.or_eq_true, decide_eq_true_eq] at hterm
            have htw : (ConfigResp.resp code cfg :: rest).takeWhile
                (fun r => !terminalResp r) = [] := by
              rw [List.takeWhile_cons]
              simp [terminalResp]
              omega
            rw [htw]
            rcases hterm with h200 | h401
            · subst h200
              rw [fetchInitialGo_success_step]
              rfl
            · subst h401
              rw [fetchInitialGo_auth_step]
              rfl
      · have hf : terminalResp r = false := by
          cases hb : terminalResp r
          · rfl
          · exact absurd hb hterm
        rw [fetchInitialGo_retry_step c r rest hf]
        have htw : (r :: rest).takeWhile (fun r => !terminalResp r) =
            r :: rest.takeWhile (fun r => !terminalResp r) := by
          rw [List.takeWhile_cons]
          simp [hf]
        rw [htw]
        simp only [List.length_cons, List.replicate_succ, List.filter_append,
          List.filter_cons]
        have hwarn : (if c + 1 > 60 then [FetchEvent.warn (c + 1)] else []).filter
            isSleepEvent = [] := by
          split_ifs <;> rfl
        rw [hwarn]
        simp only [List.nil_append]
        have hsl : isSleepEvent (FetchEvent.sleep 5) = true := rfl
        rw [if_pos hsl]
        rw [ih (c + 1)]

/-- The initial fetch loop runs out of script (would retry forever) iff
no scripted response is terminal (HTTP 200 or 401). -/
theorem fetchInitialGo_none_iff (l : List ConfigResp) :
    ∀ c : Nat, ((fetchInitialGo c l).1 = none ↔
      ∀ r ∈ l, terminalResp r = false) := by
  induction l with
  | nil =>
      intro c
      constructor
      · intro _ r hr
        exact absurd hr (List.not_mem_nil r)
      · intro _
        rfl
  | cons r rest ih =>
      intro c
      by_cases hterm : terminalResp r = true
      · cases r with
        | netErr => simp [terminalResp] at hterm
        | resp code cfg =>
            simp only [terminalResp, Bool.or_eq_true, decide_eq_true_eq] at hterm
            constructor
            · intro hnone
              rcases hterm with h200 | h401
              · subst h200
                rw [fetchInitialGo_success_step] at hnone
                exact absurd hnone (by simp)
              · subst h401
                rw [fetchInitialGo_auth_step] at hnone
                exact absurd hnone (by simp)
            · intro hall
              have := hall (ConfigResp.resp code cfg) (List.mem_cons_self _ _)
              simp only [terminalResp, Bool.or_eq_false_iff,
                decide_eq_false_iff_not] at this
              rcases hterm with h200 | h401
              · exact absurd h200 this.1
              · exact absurd h401 this.2
      · have hf : terminalResp r = false := by
          cases hb : terminalResp r
          · rfl
          · exact absurd hb hterm
        rw [fetchInitialGo_retry_step c r rest hf]
        simp only []
        rw [ih (c + 1)]
        constructor
        · intro hall s hs
          rcases List.mem_cons.mp hs with rfl | hs'
          · exact hf
          · exact hall s hs'
        · intro hall s hs
          exact hall s (List.mem_cons_of_mem r hs)

/-- The only ways the initial fetch loop ends: break with a config
(HTTP 200) or `sys.exit(1)` (HTTP 401). -/
theorem fetchInitialGo_result_shape (l : List ConfigResp) :
    ∀ (c : Nat) (res : FetchResult), (fetchInitialGo c l).1 = some res →
      (∃ cfg, res = FetchResult.gotConfig cfg) ∨ res = FetchResult.exits 1 := by
  induction l with
  | nil =>
      intro c res h
      exact absurd h (by simp [fetchInitialGo])
  | cons r rest ih =>
      intro c res h
      by_cases hterm : terminalResp r = true
      · cases r with
        | netErr => simp [terminalResp] at hterm
        | resp code cfg =>
            simp only [terminalResp, Bool.or_eq_true, decide_eq_true_eq] at hterm
            rcases hterm with h200 | h401
            · subst h200
              rw [fetchInitialGo_success_step] at h
              injection h with h'
              exact Or.inl ⟨cfg, h'.symm⟩
            · subst h401
              rw [fetchInitialGo_auth_step] at h
              injection h with h'
              exact Or.inr h'.symm
      · have hf : terminalResp r = false := by
          cases hb : terminalResp r
          · rfl
          · exact absurd hb hterm
        rw [fetchInitialGo_retry_step c r rest hf] at h
        exact ih (c + 1) res h

/-- C7: the initial config fetch retries on every non-terminal response
(transport failure or non-success, non-401 status) with a fixed sleep of
5 time units per retried attempt; the post-60-attempts warning changes
neither the result nor the sleeps (the outcome is independent of the
running `retry_count`); the loop keeps retrying exactly as long as no
response is terminal, and when it does end, it ends either with a config
(HTTP 200) or by exiting on a 401. -/
theorem c7_fetch_initial_retry (c c' : Nat) (l : List ConfigResp) :
    ((fetchInitialGo c l).1 = (fetchInitialGo c' l).1) ∧
    ((fetchInitialGo c l).2.filter isSleepEvent =
      List.replicate ((l.takeWhile (fun r => !terminalResp r)).length)
        (FetchEvent.sleep 5)) ∧
    ((fetchInitialGo c l).1 = none ↔ ∀ r ∈ l, terminalResp r = false) ∧
    (∀ res, (fetchInitialGo c l).1 = some res →
      (∃ cfg, res = FetchResult.gotConfig cfg) ∨ res = FetchResult.exits 1) :=
  ⟨fetchInitialGo_result_count l c c', fetchInitialGo_sleeps l c,
   fetchInitialGo_none_iff l c, fetchInitialGo_result_shape l c⟩

theorem c7_fetch_initial_retry_witness :
    ((fetchInitialGo 0 [ConfigResp.netErr,
        ConfigResp.resp 500 ⟨some 9, none, none, none, some 9⟩]).1 =
      (fetchInitialGo 100 [ConfigResp.netErr,
        ConfigResp.resp 500 ⟨some 9, none, none, none, some 9⟩]).1) ∧
    ((fetchInitialGo 0 [ConfigResp.netErr,
        ConfigResp.resp 500 ⟨some 9, none, none, none, some 9⟩]).2.filter
      isSleepEvent = [FetchEvent.sleep 5, FetchEvent.sleep 5]) ∧
    ((fetchInitialGo 0 [ConfigResp.netErr,
        ConfigResp.resp 500 ⟨some 9, none, none, none, some 9⟩]).1 = none) := by
  have h := c7_fetch_initial_retry 0 100
      [ConfigResp.netErr, ConfigResp.resp 500 ⟨some 9, none, none, none, some 9⟩]
  exact ⟨h.1, h.2.1.trans (by decide), h.2.2.1.mpr (by decide)⟩

/-- C9 counterexample: `save_local_config` opens the target with mode
`"w"`, which truncates it in place before `json.dump` writes the new
text; a concurrent reader that observes the file between the two steps
sees an empty file — neither the old nor the new content — so the save
does not have atomic-replace visibility. -/
theorem c9_atomic_save_counterexample :
    ¬ atomicReplaceVisible (some "OLD") "NEW" (save_local_config_states "NEW") := by
  intro h
  rcases h (some "") (by simp [save_local_config_states]) with h' | h'
  · exact absurd (Option.some.inj h') (by decide)
  · exact absurd (Option.some.inj h') (by decide)

/-- C9 (amended): `save_local_config` writes the target in place —
truncate, then write the full serialized text.  The final state holds
exactly the saved data, so a subsequent `load_local_config` observes the
saved state; but the write has no atomic-replace semantics
(no write-temp-then-rename): a concurrent reader can observe the
intermediate truncated (empty) state, which is neither the old content
nor (for non-empty data) the new one. -/
theorem c9_save_durable_not_atomic (old : Option String) (data : String)
    (hold : old ≠ some "") (hdata : data ≠ "") :
    ((save_local_config_states data).getLast? = some (some data)) ∧
    (∀ f, (save_local_config_states data).getLast? = some f →
      load_local_config f = data) ∧
    ¬ atomicReplaceVisible old data (save_local_config_states data) := by
  refine ⟨rfl, ?_, ?_⟩
  · intro f hf
    simp only [save_local_config_states, List.getLast?, Option.some.injEq] at hf
    rw [← hf]
    rfl
  · intro h
    rcases h (some "") (by simp [save_local_config_states]) with h' | h'
    · exact hold h'.symm
    · exact hdata (Option.some.inj h').symm

theorem c9_save_durable_not_atomic_witness :
    ((save_local_config_states "NEW").getLast? = some (some "NEW")) ∧
    ¬ atomicReplaceVisible (some "OLD") "NEW" (save_local_config_states "NEW") := by
  have h := c9_save_durable_not_atomic (some "OLD") "NEW" (by decide) (by decide)
  exact ⟨h.1, h.2.2⟩

/-- Once `known_config_version` equals the version the server keeps
reporting, the loop never attempts another refresh and never changes
state. -/
theorem runTicks_steady (override : Option Nat) (v : Int) (hv : 0 ≤ v) :
    ∀ (rest : List ReportResp) (ct : List ConfigResp) (st : LoopState),
      st.knownVersion = v →
      (∀ r ∈ rest, r = ReportResp.resp 200 (some v)) →
      runTicks override st rest ct =
        ⟨List.replicate rest.length false, none, st, ct⟩ := by
  intro rest
  induction rest with
  | nil => intro ct st hkv hall; rfl
  | cons r rest' ih =>
      intro ct st hkv hall
      have hr : r = ReportResp.resp 200 (some v) := hall r (List.mem_cons_self _ _)
      subst hr
      have hnlt : ¬ st.knownVersion < 0 := by
        rw [hkv]
        exact not_lt.mpr hv
      have hsv : (some v : Option Int).getD 0 = st.knownVersion := by
        rw [hkv]
        rfl
      have hbr : loopTick override st (ReportResp.resp 200 (some v)) ct =
          (TickOutcome.next st false, ct) := by
        simp [loopTick, hnlt, hsv]
      simp only [runTicks, hbr]
      rw [ih ct st hkv (fun s hs => hall s (List.mem_cons_of_mem _ hs))]
      simp [List.replicate_succ]

/-- C10: `known_config_version` is updated to the server-reported
version before the refresh fetch is attempted (line 543 precedes the
block at 554-571), so when that single fetch fails (transport error or
any non-200 status), no further refresh is attempted on any later tick
on which the server keeps reporting the same version: the loop keeps
running (no exit), exactly one refresh was attempted, the config stays
the old one indefinitely, and the recorded version is the new one. -/
theorem c10_stale_config (override : Option Nat) (st : LoopState) (v : Int)
    (fail : ConfigResp) (rest : List ReportResp) (ct : List ConfigResp)
    (h0 : 0 ≤ st.knownVersion) (hv : 0 ≤ v) (hne : v ≠ st.knownVersion)
    (hfail : ∀ cfg, fail ≠ ConfigResp.resp 200 cfg)
    (hrest : ∀ r ∈ rest, r = ReportResp.resp 200 (some v)) :
    ((runTicks override st (ReportResp.resp 200 (some v) :: rest)
        (fail :: ct)).flags = true :: List.replicate rest.length false) ∧
    ((runTicks override st (ReportResp.resp 200 (some v) :: rest)
        (fail :: ct)).exitCode = none) ∧
    ((runTicks override st (ReportResp.resp 200 (some v) :: rest)
        (fail :: ct)).final.config = st.config) ∧
    ((runTicks override st (ReportResp.resp 200 (some v) :: rest)
        (fail :: ct)).final.knownVersion = v) ∧
    ((runTicks override st (ReportResp.resp 200 (some v) :: rest)
        (fail :: ct)).remaining = ct) := by
  have hrc : refreshConfig override { st with knownVersion := v } (fail :: ct) =
      (TickOutcome.next { st with knownVersion := v } true, ct) := by
    cases fail with
    | netErr => rfl
    | resp code cfg =>
        have hcode : code ≠ 200 := by
          intro h200
          subst h200
          exact hfail cfg rfl
        simp [refreshConfig, hcode]
  have hnlt : ¬ st.knownVersion < 0 := not_lt.mpr h0
  have hbr : loopTick override st (ReportResp.resp 200 (some v)) (fail :: ct) =
      (TickOutcome.next { st with knownVersion := v } true, ct) := by
    simp [loopTick, hnlt, hne, hrc]
  have hrun : runTicks override st (ReportResp.resp 200 (some v) :: rest)
      (fail :: ct) =
      ⟨true :: List.replicate rest.length false, none,
        { st with knownVersion := v }, ct⟩ := by
    simp only [runTicks, hbr]
    rw [runTicks_steady override v hv rest ct { st with knownVersion := v } rfl hrest]
  rw [hrun]
  exact ⟨rfl, rfl, rfl, rfl, rfl⟩

theorem c10_stale_config_witness :
    ((runTicks none ⟨1, ⟨some 5, none, none, none, some 1⟩, 5⟩
        [ReportResp.resp 200 (some 2), ReportResp.resp 200 (some 2),
         ReportResp.resp 200 (some 2)] [ConfigResp.netErr]).flags =
      [true, false, false]) ∧
    ((runTicks none ⟨1, ⟨some 5, none, none, none, some 1⟩, 5⟩
        [ReportResp.resp 200 (some 2), ReportResp.resp 200 (some 2),
         ReportResp.resp 200 (some 2)] [ConfigResp.netErr]).final.config =
      ⟨some 5, none, none, none, some 1⟩) ∧
    ((runTicks none ⟨1, ⟨some 5, none, none, none, some 1⟩, 5⟩
        [ReportResp.resp 200 (some 2), ReportResp.resp 200 (some 2),
         ReportResp.resp 200 (some 2)] [ConfigResp.netErr]).final.knownVersion = 2) := by
  have h := c10_stale_config none ⟨1, ⟨some 5, none, none, none, some 1⟩, 5⟩ 2
      ConfigResp.netErr
      [ReportResp.resp 200 (some 2), ReportResp.resp 200 (some 2)] []
      (by norm_num) (by norm_num) (by norm_num)
      (fun cfg h => ConfigResp.noConfusion h) (by decide)
  exact ⟨h.1.trans (by decide), h.2.2.1, h.2.2.2.1⟩
